import Mathlib

/-!
Verification of the stream-sync core of `trade_republic_scraper` (`main.py`):
frame extraction, JSON decoding, the pagination loop of `fetch_all_transactions`,
the detail enricher `fetch_transaction_details`, the flattening pipeline
`flatten_and_clean_json`, the column coercions of `transform_data_types`, the
two sinks, and the `__main__` control flow.

JSON values are modelled by the inductive `JVal`; Python dictionaries become
association lists over `String` keys (Python preserves insertion order, as does
the list).  Numbers are modelled exactly: `JVal.int n` for integers and
`JVal.dec m e` for the decimal m / 10^e, which covers every numeric literal the
program's data paths manipulate.  `json.loads` is modelled by the executable
recursive-descent parser `Json.parse`; a parse failure (`none`) models a raised
`json.JSONDecodeError`.
-/

/-- JSON value, as produced by `json.loads` and manipulated by the program. -/
inductive JVal where
  | null
  | bool (b : Bool)
  | int (n : Int)
  | dec (m : Int) (e : Nat)
  | str (s : String)
  | arr (xs : List JVal)
  | obj (kvs : List (String × JVal))
deriving Repr

/-- Python truthiness (`bool(x)`) on a JSON value: `None`, `False`, `0`, `""`,
`[]` and `{}` are falsy, everything else truthy. -/
def pythonTruthy : JVal → Bool
  | .null => false
  | .bool b => b
  | .int n => n != 0
  | .dec m _ => m != 0
  | .str s => !s.isEmpty
  | .arr xs => !xs.isEmpty
  | .obj kvs => !kvs.isEmpty

/-- `d.get(k)` on a Python dict modelled as an association list: value of the
first (unique) binding of `k`, if any. -/
def dictGet (d : List (String × JVal)) (k : String) : Option JVal :=
  match d with
  | [] => none
  | (k', v) :: rest => if k' = k then some v else dictGet rest k

/-- `d[k] = v` on a Python dict: replace the existing binding of `k` in place,
else append the new binding at the end (insertion order). -/
def dictInsert (d : List (String × JVal)) (k : String) (v : JVal) :
    List (String × JVal) :=
  match d with
  | [] => [(k, v)]
  | (k', v') :: rest =>
    if k' = k then (k, v) :: rest else (k', v') :: dictInsert rest k v

/-- `d.update(u)`: insert every binding of `u` into `d`, in order. -/
def dictUpdate (d u : List (String × JVal)) : List (String × JVal) :=
  u.foldl (fun acc p => dictInsert acc p.1 p.2) d

/-! ### The frame extractor (`str.find` / `str.rfind` / slice + `json.loads`) -/

/-- `s.find(c)` on a Python string: index of the first occurrence, `none` for -1. -/
def charFind (l : List Char) (c : Char) : Option Nat :=
  match l with
  | [] => none
  | x :: xs => if x = c then some 0 else (charFind xs c).map (· + 1)

/-- `s.rfind(c)` on a Python string: index of the last occurrence, `none` for -1. -/
def charRfind (l : List Char) (c : Char) : Option Nat :=
  match l with
  | [] => none
  | x :: xs =>
    match charRfind xs c with
    | some i => some (i + 1)
    | none => if x = c then some 0 else none

/-- The substring handed to `json.loads` by the scraper:
`response[start_index : end_index + 1]` when both `find(openc)` and
`rfind(closec)` succeed, else the default (`"{}"` or `"[]"`). -/
def extractFrame (s : String) (openc closec : Char) (dflt : String) : String :=
  let l := s.toList
  match charFind l openc, charRfind l closec with
  | some i, some j => String.mk ((l.drop i).take (j + 1 - i))
  | _, _ => dflt

/-! ### An executable model of `json.loads`

Recursive-descent JSON parser over the character list, with a fuel argument
bounding recursion depth (`2 * length + 2` always suffices since every two fuel
steps consume at least one character).  `none` models a raised
`json.JSONDecodeError`.  Scope: object/array/string/number/keyword syntax with
the common string escapes; numeric exponents and `\u` escapes are outside the
inputs this development evaluates and are rejected. -/

/-- JSON insignificant whitespace. -/
def isJsonWs (c : Char) : Bool := c = ' ' || c = '\n' || c = '\t' || c = '\r'

/-- Drop leading JSON whitespace. -/
def skipWs : List Char → List Char
  | [] => []
  | c :: cs => if isJsonWs c then skipWs cs else c :: cs

/-- Parse the body of a JSON string literal (the opening quote already
consumed), returning the decoded string and the characters after the closing
quote. -/
def parseStringBody : List Char → Option (String × List Char)
  | [] => none
  | c :: cs =>
    if c = '\"' then some ("", cs)
    else if c = '\\' then
      match cs with
      | [] => none
      | e :: cs' =>
        let esc : Option Char :=
          if e = '\"' then some '\"'
          else if e = '\\' then some '\\'
          else if e = '/' then some '/'
          else if e = 'n' then some '\n'
          else if e = 't' then some '\t'
          else if e = 'r' then some '\r'
          else none
        match esc with
        | none => none
        | some ch => (parseStringBody cs').map (fun p => (String.mk (ch :: p.1.toList), p.2))
    else (parseStringBody cs).map (fun p => (String.mk (c :: p.1.toList), p.2))

/-- Consume a maximal run of leading decimal digits. -/
def takeDigits : List Char → List Char × List Char
  | [] => ([], [])
  | c :: cs =>
    if c.isDigit then
      let p := takeDigits cs
      (c :: p.1, p.2)
    else ([], c :: cs)

/-- Numeric value of a digit run. -/
def digitsVal (ds : List Char) : Nat := ds.foldl (fun a c => a * 10 + (c.toNat - 48)) 0

/-- Parse a JSON number (integer or decimal fraction). -/
def parseNumber (cs : List Char) : Option (JVal × List Char) :=
  let p0 : Bool × List Char :=
    match cs with
    | '-' :: rest => (true, rest)
    | _ => (false, cs)
  let ip := takeDigits p0.2
  if ip.1.isEmpty then none
  else
    match ip.2 with
    | '.' :: cs3 =>
      let fp := takeDigits cs3
      if fp.1.isEmpty then none
      else
        let m : Int := Int.ofNat (digitsVal (ip.1 ++ fp.1))
        some (.dec (if p0.1 then -m else m) fp.1.length, fp.2)
    | _ =>
      let n : Int := Int.ofNat (digitsVal ip.1)
      some (.int (if p0.1 then -n else n), ip.2)

/-- Consume an expected literal tail (`ull`, `rue`, `alse`). -/
def dropLit : List Char → List Char → Option (List Char)
  | [], cs => some cs
  | _ :: _, [] => none
  | l :: ls, c :: cs => if c = l then dropLit ls cs else none

mutual

/-- Parse one JSON value. -/
def parseVal : Nat → List Char → Option (JVal × List Char)
  | 0, _ => none
  | fuel + 1, cs =>
    match skipWs cs with
    | [] => none
    | c :: rest =>
      if c = 'n' then (dropLit ['u', 'l', 'l'] rest).map (fun r => (JVal.null, r))
      else if c = 't' then (dropLit ['r', 'u', 'e'] rest).map (fun r => (JVal.bool true, r))
      else if c = 'f' then (dropLit ['a', 'l', 's', 'e'] rest).map (fun r => (JVal.bool false, r))
      else if c = '\"' then (parseStringBody rest).map (fun p => (JVal.str p.1, p.2))
      else if c = '\x7b' then
        match skipWs rest with
        | '\x7d' :: r2 => some (JVal.obj [], r2)
        | r2 =>
          (parseMembers fuel r2).map
            (fun p => (JVal.obj (p.1.foldl (fun d q => dictInsert d q.1 q.2) []), p.2))
      else if c = '[' then
        match skipWs rest with
        | ']' :: r2 => some (JVal.arr [], r2)
        | r2 => (parseItems fuel r2).map (fun p => (JVal.arr p.1, p.2))
      else if c = '-' || c.isDigit then parseNumber (c :: rest)
      else none

/-- Parse the comma-separated items of a non-empty array, up to `]`. -/
def parseItems : Nat → List Char → Option (List JVal × List Char)
  | 0, _ => none
  | fuel + 1, cs =>
    match parseVal fuel cs with
    | none => none
    | some (v, rest) =>
      match skipWs rest with
      | ',' :: r2 => (parseItems fuel r2).map (fun p => (v :: p.1, p.2))
      | ']' :: r2 => some ([v], r2)
      | _ => none

/-- Parse the members of a non-empty object, up to the closing brace. -/
def parseMembers : Nat → List Char → Option (List (String × JVal) × List Char)
  | 0, _ => none
  | fuel + 1, cs =>
    match skipWs cs with
    | '\"' :: r1 =>
      match parseStringBody r1 with
      | none => none
      | some (k, r2) =>
        match skipWs r2 with
        | ':' :: r3 =>
          match parseVal fuel r3 with
          | none => none
          | some (v, r4) =>
            match skipWs r4 with
            | ',' :: r5 => (parseMembers fuel r5).map (fun p => ((k, v) :: p.1, p.2))
            | '\x7d' :: r5 => some ([(k, v)], r5)
            | _ => none
        | _ => none
    | _ => none

end

/-- `json.loads`: parse a complete JSON document (trailing whitespace allowed,
trailing garbage rejected); `none` models a raised `JSONDecodeError`.
Duplicate object keys keep the last binding, as in Python. -/
def jsonLoads (s : String) : Option JVal :=
  match parseVal (2 * s.length + 2) s.toList with
  | some (v, rest) => if (skipWs rest).isEmpty then some v else none
  | none => none

/-- The object-shaped frame decode used at `fetch_all_transactions` and
`fetch_transaction_details`: slice between the first `U+007B` and the last
`U+007D` (default the empty-object text) and `json.loads` the result. -/
def frameLoadsObj (s : String) : Option JVal :=
  jsonLoads (extractFrame s '\x7b' '\x7d' "\x7b\x7d")

/-- The array-shaped frame decode used at `profile_cash`: slice between the
first `[` and the last `]` (default `"[]"`) and `json.loads` the result. -/
def frameLoadsArr (s : String) : Option JVal :=
  jsonLoads (extractFrame s '[' ']' "[]")

/-! ### `flatten_and_clean_json`

The Python helper keeps one shared mutable list `all_keys` across the whole
batch; the model threads it explicitly.  Inside `flatten`, the key-recording
step runs for every key, including keys whose value is a nested dict — so a
nested dict's parent path is recorded in `all_keys` (after the keys produced by
its recursive call) even though no flat value is ever stored under it. -/

/-- CPython's default `sys.getrecursionlimit()`, used as the nesting-depth
bound of the flatten walk. -/
def pythonRecursionLimit : Nat := 1000

/-- Record a column name in `all_keys` if not yet present (insertion order). -/
def appendKey (keys : List String) (k : String) : List String :=
  if k ∈ keys then keys else keys ++ [k]

/-- The inner `flatten(nested_json, parent_key)` of `flatten_and_clean_json`:
walk the bindings in order, recursing into dict values and storing other values
under the joined key; thread the shared `all_keys` accumulator.  Returns
`(flat_dict, all_keys)`.  The `Nat` argument only bounds the recursion depth so
that the definition is structurally recursive; the caller passes CPython's own
default recursion limit, below which the zero arm is unreachable (past it,
CPython itself would raise `RecursionError`). -/
def flattenDict (sep : String) :
    Nat → String → List (String × JVal) → List (String × JVal) → List String →
    List (String × JVal) × List String
  | _, _, [], flat, keys => (flat, keys)
  | 0, _, _ :: _, flat, keys => (flat, keys)
  | fuel + 1, parent, (k, v) :: rest, flat, keys =>
    let newKey := if parent = "" then k else parent ++ sep ++ k
    match v with
    | JVal.obj kvs =>
      let sub := flattenDict sep fuel newKey kvs [] keys
      flattenDict sep fuel parent rest (dictUpdate flat sub.1) (appendKey sub.2 newKey)
    | v => flattenDict sep fuel parent rest (dictInsert flat newKey v) (appendKey keys newKey)

/-- `flatten_and_clean_json(all_data, sep)`: flatten every record, collecting
the global column list, then re-emit every record with exactly the collected
columns in order, missing ones as `None`. -/
def flatten_and_clean_json (all_data : List (List (String × JVal))) (sep : String) :
    List (List (String × JVal)) :=
  let step := all_data.foldl
    (fun (st : List (List (String × JVal)) × List String) item =>
      let fl := flattenDict sep pythonRecursionLimit "" item [] st.2
      (st.1 ++ [fl.1], fl.2))
    ([], [])
  step.1.map (fun item => step.2.map (fun k => (k, (dictGet item k).getD JVal.null)))

/-! ### `transform_data_types` and the tabular layer

A DataFrame built from a list of records is modelled column-wise as
`List (String × List JVal)`: the column names in first-seen order, each with
its cells (missing entries as `JVal.null`, pandas' NA).  `pd.to_numeric`
results are modelled by `NumV`; a whole column is promoted to float dtype as
soon as any cell is missing or fractional, which is what makes `str(x)` print
`"10.0"` rather than `"10"` in such columns.  The cell domain of the modelled
coercions is the scalar values these columns carry in this dataset. -/

/-- A numeric cell after `pd.to_numeric`: integer or exact decimal m / 10^e. -/
inductive NumV where
  | i (n : Int)
  | d (m : Int) (e : Nat)
deriving Repr

/-- Parse a string cell the way `pd.to_numeric` does (sign, digits, optional
decimal point, surrounding whitespace); `none` is NaN under `errors="coerce"`.
Exponent notation is outside the inputs this development evaluates. -/
def strParseNum (s : String) : Option NumV :=
  let cs := skipWs s.toList
  let p0 : Bool × List Char :=
    match cs with
    | '-' :: rest => (true, rest)
    | '+' :: rest => (false, rest)
    | _ => (false, cs)
  let ip := takeDigits p0.2
  match ip.2 with
  | '.' :: cs3 =>
    let fp := takeDigits cs3
    if ip.1.isEmpty && fp.1.isEmpty then none
    else if (skipWs fp.2).isEmpty then
      let m : Int := Int.ofNat (digitsVal (ip.1 ++ fp.1))
      some (.d (if p0.1 then -m else m) fp.1.length)
    else none
  | rest =>
    if ip.1.isEmpty then none
    else if (skipWs rest).isEmpty then
      let n : Int := Int.ofNat (digitsVal ip.1)
      some (.i (if p0.1 then -n else n))
    else none

/-- `pd.to_numeric(cell, errors="coerce")` on one scalar cell; `none` is NaN. -/
def toNumericCell : JVal → Option NumV
  | .int n => some (.i n)
  | .dec m e => some (.d m e)
  | .bool b => some (.i (if b then 1 else 0))
  | .str s => strParseNum s
  | _ => none

/-- Python `str()` of an integer. -/
def pyIntStr (n : Int) : String := toString n

/-- Python `str()` of a float holding the exact decimal m / 10^e: integer part,
point, fraction with trailing zeros removed (`"1234.5"`, `"1.0"`, `"-0.5"`). -/
def pyFloatStr : NumV → String
  | .i n => toString n ++ ".0"
  | .d m e =>
    let ds := toString m.natAbs
    let ds := if ds.length ≤ e then
        String.mk (List.replicate (e + 1 - ds.length) '0') ++ ds
      else ds
    let ipart := ds.take (ds.length - e)
    let fr := String.mk (((ds.drop (ds.length - e)).toList.reverse.dropWhile (· = '0')).reverse)
    (if m < 0 then "-" else "") ++ ipart ++ "." ++ (if fr.isEmpty then "0" else fr)

/-- `str.replace(old, new)` for a single-character pattern: per-character
substitution. -/
def replaceChar (s : String) (a b : Char) : String :=
  String.mk (s.toList.map (fun c => if c = a then b else c))

/-- One amount column through `transform_data_types`: `pd.to_numeric(errors=
"coerce")` then `str(x).replace(".", ",") if pd.notna(x) else x` per cell;
NaN cells stay NA (modelled `JVal.null`). -/
def amountTransform (cells : List JVal) : List JVal :=
  let parsed := cells.map toNumericCell
  let isFloat := parsed.any (fun o =>
    match o with
    | some (NumV.i _) => false
    | _ => true)
  parsed.map (fun o =>
    match o with
    | none => JVal.null
    | some v =>
      JVal.str (replaceChar
        (if isFloat then pyFloatStr v else pyIntStr (match v with | .i n => n | .d m _ => m))
        '.' ','))

/-- Days per month, with leap years. -/
def daysInMonth (y m : Nat) : Nat :=
  if m = 2 then (if (y % 4 = 0 && y % 100 != 0) || y % 400 = 0 then 29 else 28)
  else if m = 4 || m = 6 || m = 9 || m = 11 then 30 else 31

/-- Consume exactly `n` decimal digits. -/
def takeNDigits (n : Nat) (cs : List Char) : Option (Nat × List Char) :=
  let p := takeDigits cs
  if p.1.length = n then some (digitsVal p.1, p.2) else none

/-- Consume a valid `HH:MM:SS[.fraction]` time. -/
def parseTime (cs : List Char) : Option (List Char) :=
  match takeNDigits 2 cs with
  | some (h, ':' :: r2) =>
    match takeNDigits 2 r2 with
    | some (mi, ':' :: r4) =>
      match takeNDigits 2 r4 with
      | some (se, r5) =>
        if h < 24 && mi < 60 && se < 60 then
          match r5 with
          | '.' :: r6 =>
            let p := takeDigits r6
            if p.1.isEmpty then none else some p.2
          | r5 => some r5
        else none
      | _ => none
    | _ => none
  | _ => none

/-- Parse an ISO-8601 timestamp string as `pd.to_datetime` does on this
dataset's `timestamp` column: `YYYY-MM-DD`, optionally `T` or space plus
`HH:MM:SS[.fraction]`, optionally a final `Z`; calendar-validated.  `none` is
NaT under `errors="coerce"`. -/
def parseTsStr (s : String) : Option (Nat × Nat × Nat) :=
  match takeNDigits 4 s.toList with
  | some (y, '-' :: r2) =>
    match takeNDigits 2 r2 with
    | some (mo, '-' :: r4) =>
      match takeNDigits 2 r4 with
      | some (d, r5) =>
        if 1 ≤ mo && mo ≤ 12 && 1 ≤ d && d ≤ daysInMonth y mo then
          match r5 with
          | [] => some (y, mo, d)
          | sep :: r6 =>
            if sep = 'T' || sep = ' ' then
              match parseTime r6 with
              | some [] => some (y, mo, d)
              | some ['Z'] => some (y, mo, d)
              | _ => none
            else none
        else none
      | _ => none
    | _ => none
  | _ => none

/-- Zero-pad to two digits (`strftime` `%d`, `%m`). -/
def pad2 (n : Nat) : String := if n < 10 then "0" ++ toString n else toString n

/-- The timestamp column through `transform_data_types`:
`pd.to_datetime(errors="coerce").dt.strftime("%d/%m/%Y")` per cell; NaT cells
render as NA (modelled `JVal.null`). -/
def dateTransform (cells : List JVal) : List JVal :=
  cells.map (fun v =>
    match v with
    | .str s =>
      match parseTsStr s with
      | some ymd => JVal.str (pad2 ymd.2.2 ++ "/" ++ pad2 ymd.2.1 ++ "/" ++ toString ymd.1)
      | none => JVal.null
    | _ => JVal.null)

/-- The designated amount-like columns of `transform_data_types`. -/
def amount_columns : List String :=
  ["amount.value", "amount.fractionDigits", "subAmount.value", "subAmount.fractionDigits"]

/-- `transform_data_types(df)`: reformat the `timestamp` column to
`DD/MM/YYYY` and the designated amount columns to decimal-comma text; all
other columns pass through unchanged. -/
def transform_data_types (df : List (String × List JVal)) : List (String × List JVal) :=
  df.map (fun col =>
    if col.1 = "timestamp" then (col.1, dateTransform col.2)
    else if amount_columns.contains col.1 then (col.1, amountTransform col.2)
    else col)

/-- Is this cell pandas-NA (Python `None` / NaN)? -/
def JVal.isNull : JVal → Bool
  | .null => true
  | _ => false

/-- `pd.DataFrame(records)`: columns in first-seen key order, each record
contributing one row, missing entries NA. -/
def mkDataFrame (recs : List (List (String × JVal))) : List (String × List JVal) :=
  let cols := recs.foldl (fun acc r => r.foldl (fun a p => appendKey a p.1) acc) []
  cols.map (fun k => (k, recs.map (fun r => (dictGet r k).getD JVal.null)))

/-- `df.dropna(axis=1, how="all")`: keep exactly the columns with at least one
non-NA cell. -/
def dropAllNull (df : List (String × List JVal)) : List (String × List JVal) :=
  df.filter (fun col => col.2.any (fun v => !v.isNull))

/-! ### The channel session and the pagination loop

A websocket is modelled as the list of text frames still to be received plus
the list of protocol frames sent so far.  `Frame` records what each claim
needs of a sent frame: the kind and the request id (`connect`/`sub`/`unsub`).
Run-terminating Python exceptions are modelled by `RunErr`; the page loop
carries a fuel argument (any fuel at least the number of pages served makes
the runs of interest succeed). -/

/-- A frame sent on the websocket: the connect handshake, `sub <id> <payload>`
or `unsub <id>`. -/
inductive Frame where
  | connect
  | sub (id : Nat)
  | unsub (id : Nat)
deriving Repr, DecidableEq

/-- Websocket state: frames still to be received, frames sent so far. -/
structure Ws where
  incoming : List String
  sent : List Frame
deriving Repr

/-- `websocket.send`: append one sent frame. -/
def Ws.push (ws : Ws) (f : Frame) : Ws := { ws with sent := ws.sent ++ [f] }

/-- `websocket.recv`: pop the next incoming text frame; `none` models a closed
connection (an exception ending the run). -/
def Ws.recvNext (ws : Ws) : Option (String × Ws) :=
  match ws.incoming with
  | [] => none
  | s :: rest => some (s, { ws with incoming := rest })

/-- A Python exception that terminates the run. -/
inductive RunErr where
  | connClosed
  | jsonError
  | typeError
  | outOfFuel
deriving Repr, DecidableEq


/-- The per-entry scan of a `"Transaction"` section's `data` list in
`fetch_transaction_details`: an entry with truthy title and truthy
`detail.text` contributes `title -> text`.  `none` models the exception raised
on a non-dict entry or a non-dict `detail`.  Titles are modelled as strings
(the only key type an association list over `String` can carry, and the only
one this payload uses). -/
def detailItems : List (String × JVal) → List JVal → Option (List (String × JVal))
  | td, [] => some td
  | td, JVal.obj ikvs :: rest =>
    let textOpt : Option (Option JVal) :=
      match dictGet ikvs "detail" with
      | some (JVal.obj dkvs) => some (dictGet dkvs "text")
      | none => some none
      | some _ => none
    match textOpt with
    | none => none
    | some value =>
      let td' :=
        match dictGet ikvs "title", value with
        | some (JVal.str h), some v =>
          if pythonTruthy (JVal.str h) && pythonTruthy v then dictInsert td h v else td
        | _, _ => td
      detailItems td' rest
  | _, _ :: _ => none

/-- The section scan of `fetch_transaction_details`: sections whose title is
`"Transaction"` contribute their `data` entries; others are skipped.  `none`
models the exception raised on a non-dict section or a non-list `data`. -/
def detailSections : List (String × JVal) → List JVal → Option (List (String × JVal))
  | td, [] => some td
  | td, JVal.obj skvs :: rest =>
    let isTx : Bool :=
      match dictGet skvs "title" with
      | some (JVal.str t) => t = "Transaction"
      | _ => false
    if isTx then
      let itemsOpt : Option (List JVal) :=
        match dictGet skvs "data" with
        | some (JVal.arr items) => some items
        | none => some []
        | some _ => none
      match itemsOpt with
      | none => none
      | some items =>
        match detailItems td items with
        | none => none
        | some td' => detailSections td' rest
    else detailSections td rest
  | _, _ :: _ => none

/-- `transaction_data` as built by `fetch_transaction_details` from a decoded
detail response object: scan `response_data.get("sections", [])`. -/
def transactionDetailData (kvs : List (String × JVal)) : Option (List (String × JVal)) :=
  match dictGet kvs "sections" with
  | some (JVal.arr sections) => detailSections [] sections
  | none => some []
  | some _ => none

/-- `fetch_transaction_details`: allocate the next request id, subscribe,
receive the response, unsubscribe, receive the acknowledgement, then decode
the response frame as an object and scan its sections.  Returns
`(transaction_data, message_id, websocket)`.  Request payloads carry no
information any claim observes, so sent frames record kind and id only. -/
def fetch_transaction_details (ws : Ws) (message_id : Nat) :
    Except RunErr (List (String × JVal) × Nat × Ws) :=
  let mid := message_id + 1
  let ws := ws.push (.sub mid)
  match ws.recvNext with
  | none => .error .connClosed
  | some (response, ws) =>
    let ws := ws.push (.unsub mid)
    match ws.recvNext with
    | none => .error .connClosed
    | some (_, ws) =>
      match frameLoadsObj response with
      | none => .error .jsonError
      | some (JVal.obj kvs) =>
        match transactionDetailData kvs with
        | none => .error .typeError
        | some td => .ok (td, mid, ws)
      | some _ => .error .typeError

/-- The `extract_details` branch of the page loop in `fetch_all_transactions`:
for each transaction of the page, if `transaction.get("id")` is truthy fetch
its details and merge them into the item (`transaction.update(details)`);
either way append the item to the output.  A non-dict item raises. -/
def processDetails : List JVal → Nat → Ws → Except RunErr (List JVal × Nat × Ws)
  | [], mid, ws => .ok ([], mid, ws)
  | JVal.obj kvs :: rest, mid, ws =>
    if pythonTruthy ((dictGet kvs "id").getD JVal.null) then
      match fetch_transaction_details ws mid with
      | .error e => .error e
      | .ok (td, mid', ws') =>
        match processDetails rest mid' ws' with
        | .error e => .error e
        | .ok (out, mid'', ws'') => .ok (JVal.obj (dictUpdate kvs td) :: out, mid'', ws'')
    else
      match processDetails rest mid ws with
      | .error e => .error e
      | .ok (out, mid', ws') => .ok (JVal.obj kvs :: out, mid', ws')
  | _ :: _, _, _ => .error .typeError

/-- The `while True` page loop of `fetch_all_transactions`: subscribe with the
next id, receive the page, unsubscribe, receive the acknowledgement, decode
the frame; stop if `items` is falsy, else append the (optionally enriched)
items and continue with `cursors.after` while it is truthy.  `fuel` bounds the
number of iterations (any value at least the number of pages served suffices);
non-list `items` and non-dict `cursors` raise. -/
def fetchPagesLoop (fuel : Nat) (extract_details : Bool) (_after_cursor : Option JVal)
    (message_id : Nat) (all_data : List JVal) (ws : Ws) :
    Except RunErr (List JVal × Nat × Ws) :=
  match fuel with
  | 0 => .error .outOfFuel
  | fuel + 1 =>
    let mid := message_id + 1
    let ws := ws.push (.sub mid)
    match ws.recvNext with
    | none => .error .connClosed
    | some (response, ws) =>
      let ws := ws.push (.unsub mid)
      match ws.recvNext with
      | none => .error .connClosed
      | some (_, ws) =>
        match frameLoadsObj response with
        | none => .error .jsonError
        | some (JVal.obj kvs) =>
          if !pythonTruthy ((dictGet kvs "items").getD JVal.null) then
            .ok (all_data, mid, ws)
          else
            match dictGet kvs "items" with
            | some (JVal.arr items) =>
              let proc : Except RunErr (List JVal × Nat × Ws) :=
                if extract_details then processDetails items mid ws
                else .ok (items, mid, ws)
              match proc with
              | .error e => .error e
              | .ok (processed, mid2, ws2) =>
                let acc := all_data ++ processed
                let cursorsOpt : Option (Option JVal) :=
                  match dictGet kvs "cursors" with
                  | some (JVal.obj ckvs) => some (dictGet ckvs "after")
                  | none => some none
                  | some _ => none
                match cursorsOpt with
                | none => .error .typeError
                | some none => .ok (acc, mid2, ws2)
                | some (some av) =>
                  if pythonTruthy av then
                    fetchPagesLoop fuel extract_details (some av) mid2 acc ws2
                  else .ok (acc, mid2, ws2)
            | _ => .error .typeError
        | some _ => .error .typeError

/-- The websocket phase of `fetch_all_transactions`: connect (one handshake
frame sent, one response received), run the page loop from `message_id = 0`
with no cursor, and return the accumulated items with the final websocket
state. -/
def fetch_all_transactions (fuel : Nat) (extract_details : Bool) (incoming : List String) :
    Except RunErr (List JVal × Ws) :=
  let ws : Ws := ⟨incoming, []⟩
  let ws := ws.push .connect
  match ws.recvNext with
  | none => .error .connClosed
  | some (_, ws) =>
    match fetchPagesLoop fuel extract_details none 0 [] ws with
    | .error e => .error e
    | .ok (all_data, _, ws) => .ok (all_data, ws)

/-- The websocket phase of `profile_cash`: connect, send `sub 1` (hard-coded
id, no unsubscribe), receive one response, decode it as an array. -/
def profile_cash (incoming : List String) : Except RunErr (List JVal × Ws) :=
  let ws : Ws := ⟨incoming, []⟩
  let ws := ws.push .connect
  match ws.recvNext with
  | none => .error .connClosed
  | some (_, ws) =>
    let ws := ws.push (.sub 1)
    match ws.recvNext with
    | none => .error .connClosed
    | some (response, ws) =>
      match frameLoadsArr response with
      | none => .error .jsonError
      | some (JVal.arr xs) => .ok (xs, ws)
      | some _ => .error .typeError

/-! ### The sinks and the `__main__` control flow -/

/-- `s.lower()` on a Python string (ASCII scope of the format values). -/
def pyLower (s : String) : String := String.mk (s.toList.map Char.toLower)

/-- One output file written by a sink. -/
inductive SinkWrite where
  | jsonFile (name : String) (data : List JVal)
  | csvFile (name : String) (df : List (String × List JVal))
deriving Repr

/-- View a list of JSON values as a batch of records; `none` models the
exception `flatten_and_clean_json` raises on a non-dict record. -/
def asObjs : List JVal → Option (List (List (String × JVal)))
  | [] => some []
  | JVal.obj kvs :: rest => (asObjs rest).map (kvs :: ·)
  | _ :: _ => none

/-- The save step at the end of `fetch_all_transactions`: `json` writes the
raw item list unconditionally; any other configured format takes the csv
branch, which flattens, skips the write entirely when the flattened batch is
empty, and otherwise writes the DataFrame after dropping all-NA columns and
applying `transform_data_types`. -/
def saveTransactions (output_format : String) (all_data : List JVal) :
    Except RunErr (List SinkWrite) :=
  if pyLower output_format = "json" then
    .ok [.jsonFile "trade_republic_transactions.json" all_data]
  else
    match asObjs all_data with
    | none => .error .typeError
    | some recs =>
      let flattened := flatten_and_clean_json recs "."
      if flattened.isEmpty then .ok []
      else
        .ok [.csvFile "trade_republic_transactions.csv"
              (transform_data_types (dropAllNull (mkDataFrame flattened)))]

/-- The save step at the end of `profile_cash`: `json` writes the decoded
array unconditionally; the csv branch flattens, skips the write when the
flattened batch is empty, and otherwise writes the DataFrame as-is — with no
`dropna` and no `transform_data_types`. -/
def saveProfileCash (output_format : String) (response_data : List JVal) :
    Except RunErr (List SinkWrite) :=
  if pyLower output_format = "json" then
    .ok [.jsonFile "trade_republic_profile_cash.json" response_data]
  else
    match asObjs response_data with
    | none => .error .typeError
    | some recs =>
      let flattened := flatten_and_clean_json recs "."
      if flattened.isEmpty then .ok []
      else .ok [.csvFile "trade_republic_profile_cash.csv" (mkDataFrame flattened)]

/-- An observable step of the `__main__` block. -/
inductive Effect where
  | readConfig
  | makeDirs
  | printMsg
  | promptInput
  | netLogin
  | netResend
  | netVerify
  | wsTransactions
  | wsProfile
  | exitProg
deriving Repr, DecidableEq

/-- Does this step touch the network (HTTP login flow or websocket phase)? -/
def Effect.isNetwork : Effect → Bool
  | .netLogin => true
  | .netResend => true
  | .netVerify => true
  | .wsTransactions => true
  | .wsProfile => true
  | _ => false

/-- `output_format.lower() in ["json", "csv"]`. -/
def output_format_valid (output_format : String) : Bool :=
  pyLower output_format = "json" || pyLower output_format = "csv"

/-- The step sequence of the `__main__` block: read the configuration, create
the output folder, validate the output format (printing and exiting on an
unknown format), then the login POST, the `processId` check, the 2FA prompt
(with optional SMS resend), the verification POST and its check, the session
token extraction and its check, and finally the two websocket tasks.  The
booleans select the branch taken at each data-dependent check. -/
def mainTrace (output_format : String)
    (processIdOk smsRequested verifyOk tokenOk : Bool) : List Effect :=
  [.readConfig, .makeDirs] ++
  (if !output_format_valid output_format then [.printMsg, .exitProg]
   else
     [.netLogin] ++
     (if !processIdOk then [.printMsg, .exitProg]
      else
        [.promptInput] ++
        (if smsRequested then [.netResend, .promptInput] else []) ++
        [.netVerify] ++
        (if !verifyOk then [.printMsg, .exitProg]
         else
           [.printMsg] ++
           (if !tokenOk then [.printMsg, .exitProg]
            else [.printMsg, .wsTransactions, .wsProfile]))))

/-! ### Observers used by the claims -/

/-- The request ids of the `sub` frames of a sent-frame list, in order. -/
def subIds (fs : List Frame) : List Nat :=
  fs.filterMap (fun f => match f with | .sub i => some i | _ => none)

/-- The request ids of the `unsub` frames of a sent-frame list, in order. -/
def unsubIds (fs : List Frame) : List Nat :=
  fs.filterMap (fun f => match f with | .unsub i => some i | _ => none)

/-! ### Claim C1 — frame extraction fail-soft policy -/

/-- C1, counterexample: the fail-soft fallback covers only a *missing*
delimiter.  On the frame `"x{y}"` the opening and closing braces are both
found, the extracted substring `"{y}"` is not valid JSON, and `json.loads`
raises (modelled by `none`): a malformed frame does abort the loop, it is not
treated as "no items". -/
theorem c1_malformed_frame_raises :
    frameLoadsObj "x\x7by\x7d" = none ∧
    extractFrame "x\x7by\x7d" '\x7b' '\x7d' "\x7b\x7d" = "\x7by\x7d" :=
  ⟨rfl, rfl⟩

/-- C1 (amended): whenever no opening delimiter — or no closing delimiter — is
found in the raw frame, the extraction step yields the empty object `{}`
(resp. empty array `[]`) of the expected shape without raising; only in that
case is a status-only frame treated as "no items".  (When both delimiters are
present but the substring between them is not valid JSON, `json.loads`
raises.) -/
theorem c1_extraction_fail_soft (s t : String)
    (hs : charFind s.toList '\x7b' = none ∨ charRfind s.toList '\x7d' = none)
    (ht : charFind t.toList '[' = none ∨ charRfind t.toList ']' = none) :
    frameLoadsObj s = some (JVal.obj []) ∧ frameLoadsArr t = some (JVal.arr []) := by
  constructor
  · have : extractFrame s '\x7b' '\x7d' "\x7b\x7d" = "\x7b\x7d" := by
      unfold extractFrame
      rcases hs with h | h <;>
        cases hf : charFind s.toList '\x7b' <;>
          cases hr : charRfind s.toList '\x7d' <;> simp_all
    rw [frameLoadsObj, this]
    rfl
  · have : extractFrame t '[' ']' "[]" = "[]" := by
      unfold extractFrame
      rcases ht with h | h <;>
        cases hf : charFind t.toList '[' <;>
          cases hr : charRfind t.toList ']' <;> simp_all
    rw [frameLoadsArr, this]
    rfl

/-- C1 witness: a status-only frame with no delimiters decodes to the empty
object / empty array. -/
theorem c1_extraction_fail_soft_witness :
    frameLoadsObj "status only" = some (JVal.obj []) ∧
    frameLoadsArr "status only" = some (JVal.arr []) :=
  c1_extraction_fail_soft "status only" "status only" (Or.inl rfl) (Or.inl rfl)

/-! ### Claim C2 — flattening -/

/-- C2, counterexample: flattening `{"a": {"b": 1, "c": 2}}` with separator
`"."` does not yield only `{"a.b": 1, "a.c": 2}` — the key-recording step of
`flatten_and_clean_json` runs for nested-dict keys too, so the parent path
`"a"` becomes a column of its own, padded with `None`. -/
theorem c2_flatten_counterexample :
    flatten_and_clean_json [[("a", JVal.obj [("b", JVal.int 1), ("c", JVal.int 2)])]] "."
      = [[("a.b", JVal.int 1), ("a.c", JVal.int 2), ("a", JVal.null)]] ∧
    flatten_and_clean_json [[("a", JVal.obj [("b", JVal.int 1), ("c", JVal.int 2)])]] "."
      ≠ [[("a.b", JVal.int 1), ("a.c", JVal.int 2)]] := by
  have e : flatten_and_clean_json [[("a", JVal.obj [("b", JVal.int 1), ("c", JVal.int 2)])]] "."
      = [[("a.b", JVal.int 1), ("a.c", JVal.int 2), ("a", JVal.null)]] := by rfl
  refine ⟨e, fun h => ?_⟩
  have h' := e.symm.trans h
  simp at h'

/-- C2 (amended): flattening `{"a": {"b": 1, "c": 2}}` with separator `"."`
yields `{"a.b": 1, "a.c": 2, "a": null}` — the join of each leaf path, plus
one null-padded column per nested-parent path, recorded right after its
children.  Across a heterogeneous batch, every output record carries the same
global key list (the union of recorded key paths in first-seen order), with
keys missing from a record filled with null. -/
theorem c2_flatten_padding (data : List (List (String × JVal))) (sep : String)
    (r₁ r₂ : List (String × JVal))
    (h₁ : r₁ ∈ flatten_and_clean_json data sep)
    (h₂ : r₂ ∈ flatten_and_clean_json data sep) :
    flatten_and_clean_json [[("a", JVal.obj [("b", JVal.int 1), ("c", JVal.int 2)])]] "."
      = [[("a.b", JVal.int 1), ("a.c", JVal.int 2), ("a", JVal.null)]] ∧
    flatten_and_clean_json [[("x", JVal.int 1)], [("y", JVal.int 2)]] "."
      = [[("x", JVal.int 1), ("y", JVal.null)], [("x", JVal.null), ("y", JVal.int 2)]] ∧
    r₁.map Prod.fst = r₂.map Prod.fst := by
  refine ⟨by rfl, by rfl, ?_⟩
  unfold flatten_and_clean_json at h₁ h₂
  rcases List.mem_map.mp h₁ with ⟨a₁, -, e₁⟩
  rcases List.mem_map.mp h₂ with ⟨a₂, -, e₂⟩
  rw [← e₁, ← e₂, List.map_map, List.map_map]
  rfl

/-- C2 witness: two records of the heterogeneous example share the same
column sequence. -/
theorem c2_flatten_padding_witness :
    ([("x", JVal.int 1), ("y", JVal.null)] : List (String × JVal)).map Prod.fst
      = ([("x", JVal.null), ("y", JVal.int 2)] : List (String × JVal)).map Prod.fst := by
  have e : flatten_and_clean_json [[("x", JVal.int 1)], [("y", JVal.int 2)]] "."
      = [[("x", JVal.int 1), ("y", JVal.null)], [("x", JVal.null), ("y", JVal.int 2)]] := by rfl
  refine (c2_flatten_padding [[("x", JVal.int 1)], [("y", JVal.int 2)]] "."
    [("x", JVal.int 1), ("y", JVal.null)] [("x", JVal.null), ("y", JVal.int 2)] ?_ ?_).2.2
  · rw [e]; exact List.mem_cons_self _ _
  · rw [e]; exact List.mem_cons_of_mem _ (List.mem_cons_self _ _)

/-! ### Claim C5 — all-null column dropping -/

/-- C5, counterexample: the profile-cash tabular output performs no
`dropna` (and no coercion) at all — a column that is null in every record
(here the nested-parent column `"x"`) survives into the written csv table. -/
theorem c5_profile_keeps_all_null_column :
    saveProfileCash "csv" [JVal.obj [("x", JVal.obj [("y", JVal.int 1)])]]
      = .ok [.csvFile "trade_republic_profile_cash.csv"
              [("x.y", [JVal.int 1]), ("x", [JVal.null])]] ∧
    (([("x.y", [JVal.int 1]), ("x", [JVal.null])] : List (String × List JVal)).any
        (fun col => col.2.all (fun v => v.isNull))) = true :=
  ⟨rfl, rfl⟩

/-- C5 (amended): in the *transactions* csv pipeline, every all-null column is
dropped before `transform_data_types` runs — the written table is exactly the
coercion applied to the `dropna(axis=1, how="all")` result, and every column
of that intermediate table has at least one non-null cell.  The profile-cash
csv pipeline applies neither the dropping nor the coercion. -/
theorem c5_transactions_drop_before_coercion (all_data : List JVal)
    (recs : List (List (String × JVal))) (col : String × List JVal)
    (hrecs : asObjs all_data = some recs)
    (hne : flatten_and_clean_json recs "." ≠ [])
    (hcol : col ∈ dropAllNull (mkDataFrame (flatten_and_clean_json recs "."))) :
    saveTransactions "csv" all_data
      = .ok [.csvFile "trade_republic_transactions.csv"
              (transform_data_types
                (dropAllNull (mkDataFrame (flatten_and_clean_json recs "."))))] ∧
    col.2.any (fun v => !v.isNull) = true := by
  constructor
  · have hfmt : pyLower "csv" = "json" ↔ False := iff_false_intro (by decide)
    simp only [saveTransactions, hrecs, hfmt, if_false]
    simp [List.isEmpty_iff, hne]
  · exact (List.mem_filter.mp hcol).2

/-- C5 witness: a concrete transactions batch with an all-null nested-parent
column; the surviving column has a non-null cell and the csv write applies the
coercion to the dropped table. -/
theorem c5_transactions_drop_before_coercion_witness :
    saveTransactions "csv" [JVal.obj [("a", JVal.obj [("b", JVal.int 1)])]]
      = .ok [.csvFile "trade_republic_transactions.csv"
              (transform_data_types
                (dropAllNull (mkDataFrame
                  (flatten_and_clean_json [[("a", JVal.obj [("b", JVal.int 1)])]] "."))))] ∧
    (("a.b", [JVal.int 1]) : String × List JVal).2.any (fun v => !v.isNull) = true := by
  have e : flatten_and_clean_json [[("a", JVal.obj [("b", JVal.int 1)])]] "."
      = [[("a.b", JVal.int 1), ("a", JVal.null)]] := by rfl
  have edrop : dropAllNull (mkDataFrame
      (flatten_and_clean_json [[("a", JVal.obj [("b", JVal.int 1)])]] "."))
      = [("a.b", [JVal.int 1])] := by rfl
  refine c5_transactions_drop_before_coercion
    [JVal.obj [("a", JVal.obj [("b", JVal.int 1)])]]
    [[("a", JVal.obj [("b", JVal.int 1)])]] ("a.b", [JVal.int 1]) rfl ?_ ?_
  · rw [e]; simp
  · rw [edrop]; exact List.mem_cons_self _ _

/-! ### Claim C6 — format validation before network activity -/

/-- C6: when the configured output format is neither `json` nor `csv`
(case-insensitively), the `__main__` sequence prints an error and exits right
after reading the configuration and creating the output folder — before the
login POST, 2FA exchanges or either websocket task — so no step of the run
touches the network, whatever the later checks would have yielded. -/
theorem c6_unknown_format_no_network (output_format : String)
    (processIdOk smsRequested verifyOk tokenOk : Bool)
    (h : output_format_valid output_format = false) :
    mainTrace output_format processIdOk smsRequested verifyOk tokenOk
      = [.readConfig, .makeDirs, .printMsg, .exitProg] ∧
    (mainTrace output_format processIdOk smsRequested verifyOk tokenOk).all
      (fun e => !e.isNetwork) = true := by
  have e : mainTrace output_format processIdOk smsRequested verifyOk tokenOk
      = [.readConfig, .makeDirs, .printMsg, .exitProg] := by
    rw [mainTrace, h]
    rfl
  exact ⟨e, by rw [e]; rfl⟩

/-- C6 witness: the unknown format `"xml"` exits before any network step. -/
theorem c6_unknown_format_no_network_witness :
    mainTrace "xml" true true true true
      = [.readConfig, .makeDirs, .printMsg, .exitProg] ∧
    (mainTrace "xml" true true true true).all (fun e => !e.isNetwork) = true :=
  c6_unknown_format_no_network "xml" true true true true rfl

/-! ### Claim C9 — empty-batch sink behaviour -/

/-- C9: the `json` sinks write their output file unconditionally — for an
empty batch the file holds the empty list — while the csv sinks, guarded by
`if flattened_data:`, write no file at all when the batch is empty. -/
theorem c9_empty_batch_sinks :
    (∀ all_data, saveTransactions "json" all_data
      = .ok [.jsonFile "trade_republic_transactions.json" all_data]) ∧
    saveTransactions "csv" [] = .ok [] ∧
    (∀ response_data, saveProfileCash "json" response_data
      = .ok [.jsonFile "trade_republic_profile_cash.json" response_data]) ∧
    saveProfileCash "csv" [] = .ok [] :=
  ⟨fun _ => rfl, rfl, fun _ => rfl, rfl⟩

/-! ### Claims C7 and C8 — column coercions -/

/-- C7: in a designated amount column, a cell holding the number 1234.5 — which
promotes the column to float dtype — renders as the text `"1234,5"` (decimal
point replaced by comma), a cell whose string does not parse as a number
renders as null instead of raising, and `transform_data_types` routes every
designated amount column through exactly this per-column transform. -/
theorem c7_amount_coercion (cells cells2 : List JVal) (i j : Nat) (s : String)
    (df : List (String × List JVal)) (name : String) (cs : List JVal)
    (h1 : cells[i]? = some (JVal.dec 12345 1))
    (h2 : cells2[j]? = some (JVal.str s))
    (h3 : strParseNum s = none)
    (h4 : (name, cs) ∈ df)
    (h5 : name ∈ amount_columns) :
    (amountTransform cells)[i]? = some (JVal.str "1234,5") ∧
    (amountTransform cells2)[j]? = some JVal.null ∧
    (name, amountTransform cs) ∈ transform_data_types df := by
  refine ⟨?_, ?_, ?_⟩
  · have hfloat : (cells.map toNumericCell).any
        (fun o => match o with | some (NumV.i _) => false | _ => true) = true := by
      refine List.any_eq_true.mpr ⟨some (NumV.d 12345 1), ?_, rfl⟩
      rcases List.getElem?_eq_some.mp h1 with ⟨hlt, he⟩
      exact List.mem_map_of_mem toNumericCell (he ▸ List.getElem_mem hlt)
    simp only [amountTransform]
    rw [hfloat, List.getElem?_map, List.getElem?_map, h1]
    rfl
  · simp only [amountTransform]
    rw [List.getElem?_map, List.getElem?_map, h2]
    simp [toNumericCell, h3]
  · have hne : ¬ name = "timestamp" := by
      intro hh
      rw [hh] at h5
      exact absurd h5 (by decide)
    have hc : amount_columns.contains name = true := List.elem_iff.mpr h5
    have he : (fun col : String × List JVal =>
        if col.1 = "timestamp" then (col.1, dateTransform col.2)
        else if amount_columns.contains col.1 then (col.1, amountTransform col.2)
        else col) (name, cs) = (name, amountTransform cs) := by
      show (if name = "timestamp" then _ else _) = _
      rw [if_neg hne, hc, if_pos rfl]
    exact he ▸ List.mem_map_of_mem _ h4

/-- C7 witness: the column `amount.value` holding 1234.5 renders `"1234,5"`;
the non-numeric cell `"abc"` renders null. -/
theorem c7_amount_coercion_witness :
    (amountTransform [JVal.dec 12345 1])[0]? = some (JVal.str "1234,5") ∧
    (amountTransform [JVal.str "abc"])[0]? = some JVal.null ∧
    ("amount.value", amountTransform [JVal.dec 12345 1])
      ∈ transform_data_types [("amount.value", [JVal.dec 12345 1])] :=
  c7_amount_coercion [JVal.dec 12345 1] [JVal.str "abc"] 0 0 "abc"
    [("amount.value", [JVal.dec 12345 1])] "amount.value" [JVal.dec 12345 1]
    rfl rfl rfl (List.mem_cons_self _ _) (by decide)

/-- C8: in the `timestamp` column, the ISO-8601 cell `"2024-03-05T10:00:00Z"`
renders as `"05/03/2024"` (DD/MM/YYYY), an unparsable string cell renders as
null instead of raising, and `transform_data_types` routes the `timestamp`
column through exactly this per-column transform. -/
theorem c8_date_coercion (cells cells2 : List JVal) (i j : Nat) (s : String)
    (df : List (String × List JVal)) (cs : List JVal)
    (h1 : cells[i]? = some (JVal.str "2024-03-05T10:00:00Z"))
    (h2 : cells2[j]? = some (JVal.str s))
    (h3 : parseTsStr s = none)
    (h4 : ("timestamp", cs) ∈ df) :
    (dateTransform cells)[i]? = some (JVal.str "05/03/2024") ∧
    (dateTransform cells2)[j]? = some JVal.null ∧
    ("timestamp", dateTransform cs) ∈ transform_data_types df := by
  refine ⟨?_, ?_, ?_⟩
  · rw [dateTransform, List.getElem?_map, h1]
    rfl
  · rw [dateTransform, List.getElem?_map, h2]
    simp [h3]
  · have he : (fun col : String × List JVal =>
        if col.1 = "timestamp" then (col.1, dateTransform col.2)
        else if amount_columns.contains col.1 then (col.1, amountTransform col.2)
        else col) ("timestamp", cs) = ("timestamp", dateTransform cs) := by
      simp
    exact he ▸ List.mem_map_of_mem _ h4

/-- C8 witness: the ISO cell renders `"05/03/2024"`, `"not-a-date"` renders
null. -/
theorem c8_date_coercion_witness :
    (dateTransform [JVal.str "2024-03-05T10:00:00Z"])[0]? = some (JVal.str "05/03/2024") ∧
    (dateTransform [JVal.str "not-a-date"])[0]? = some JVal.null ∧
    ("timestamp", dateTransform [JVal.str "2024-03-05T10:00:00Z"])
      ∈ transform_data_types [("timestamp", [JVal.str "2024-03-05T10:00:00Z"])] :=
  c8_date_coercion [JVal.str "2024-03-05T10:00:00Z"] [JVal.str "not-a-date"] 0 0
    "not-a-date" [("timestamp", [JVal.str "2024-03-05T10:00:00Z"])]
    [JVal.str "2024-03-05T10:00:00Z"] rfl rfl rfl (List.mem_cons_self _ _)

/-! ### Bookkeeping lemmas for the channel layer -/

/-- A successful detail fetch advances the id counter by exactly one and sends
exactly the paired `sub`/`unsub` frames for the new id. -/
theorem fetch_transaction_details_ok (ws : Ws) (mid : Nat) (td : List (String × JVal))
    (mid' : Nat) (ws' : Ws)
    (h : fetch_transaction_details ws mid = .ok (td, mid', ws')) :
    mid' = mid + 1 ∧ ws'.sent = ws.sent ++ [.sub (mid + 1), .unsub (mid + 1)] := by
  rcases ws with ⟨inc, sent⟩
  match inc with
  | [] => simp [fetch_transaction_details, Ws.push, Ws.recvNext] at h
  | [r] => simp [fetch_transaction_details, Ws.push, Ws.recvNext] at h
  | r :: a :: rest =>
    simp only [fetch_transaction_details, Ws.push, Ws.recvNext] at h
    split at h
    · exact Except.noConfusion h
    · split at h
      · exact Except.noConfusion h
      · injection h with h'
        injection h' with h1 h2
        injection h2 with h2 h3
        subst h1 h2
        rw [← h3]
        exact ⟨rfl, by simp⟩
    · exact Except.noConfusion h

/-- `subIds` distributes over a leading `sub` frame. -/
theorem subIds_cons_sub (i : Nat) (fs : List Frame) :
    subIds (Frame.sub i :: fs) = i :: subIds fs := rfl

/-- `subIds` ignores a leading `unsub` frame. -/
theorem subIds_cons_unsub (i : Nat) (fs : List Frame) :
    subIds (Frame.unsub i :: fs) = subIds fs := rfl

/-- `unsubIds` ignores a leading `sub` frame. -/
theorem unsubIds_cons_sub (i : Nat) (fs : List Frame) :
    unsubIds (Frame.sub i :: fs) = unsubIds fs := rfl

/-- `unsubIds` distributes over a leading `unsub` frame. -/
theorem unsubIds_cons_unsub (i : Nat) (fs : List Frame) :
    unsubIds (Frame.unsub i :: fs) = i :: unsubIds fs := rfl

/-- `subIds` over an append. -/
theorem subIds_append (a b : List Frame) : subIds (a ++ b) = subIds a ++ subIds b :=
  List.filterMap_append a b _

/-- `unsubIds` over an append. -/
theorem unsubIds_append (a b : List Frame) : unsubIds (a ++ b) = unsubIds a ++ unsubIds b :=
  List.filterMap_append a b _

/-- Splitting one element off a consecutive id range. -/
theorem range'_eat (lo hi : Nat) (h : lo + 1 ≤ hi) :
    List.range' (lo + 1) (hi - lo) = (lo + 1) :: List.range' (lo + 2) (hi - (lo + 1)) := by
  have h1 : hi - lo = (hi - (lo + 1)) + 1 := by omega
  have h2 : lo + 1 + 1 = lo + 2 := by omega
  rw [h1, List.range', h2]

/-- A successful enrichment pass over a page's items keeps the id counter
non-decreasing, emits one output item per input item, and sends a block of
frames whose subscribe ids are exactly the freshly allocated consecutive ids,
each paired with its unsubscribe. -/
theorem processDetails_ok (items : List JVal) : ∀ (mid : Nat) (ws : Ws)
    (out : List JVal) (mid' : Nat) (ws' : Ws),
    processDetails items mid ws = .ok (out, mid', ws') →
    mid ≤ mid' ∧ out.length = items.length ∧
    ∃ ext, ws'.sent = ws.sent ++ ext ∧
      subIds ext = List.range' (mid + 1) (mid' - mid) ∧
      unsubIds ext = List.range' (mid + 1) (mid' - mid) := by
  induction items with
  | nil =>
    intro mid ws out mid' ws' h
    simp only [processDetails] at h
    injection h with h'
    injection h' with h1 h2
    injection h2 with h2 h3
    subst h1 h2 h3
    exact ⟨le_refl _, rfl, [], by simp, by simp [subIds, Nat.sub_self, List.range'],
      by simp [unsubIds, Nat.sub_self, List.range']⟩
  | cons head rest ih =>
    intro mid ws out mid' ws' h
    cases head with
    | null => simp [processDetails] at h
    | bool b => simp [processDetails] at h
    | int n => simp [processDetails] at h
    | dec m e => simp [processDetails] at h
    | str s => simp [processDetails] at h
    | arr xs => simp [processDetails] at h
    | obj kvs =>
      simp only [processDetails] at h
      by_cases hid : pythonTruthy ((dictGet kvs "id").getD JVal.null) = true
      · rw [if_pos hid] at h
        cases hfd : fetch_transaction_details ws mid with
        | error e => rw [hfd] at h; exact Except.noConfusion h
        | ok r =>
          obtain ⟨td, mid₁, ws₁⟩ := r
          rw [hfd] at h
          simp only [] at h
          cases hpd : processDetails rest mid₁ ws₁ with
          | error e => rw [hpd] at h; exact Except.noConfusion h
          | ok r₂ =>
            obtain ⟨out₂, mid₂, ws₂⟩ := r₂
            rw [hpd] at h
            simp only [] at h
            injection h with h'
            injection h' with h1 h2
            injection h2 with h2 h3
            subst h1 h2 h3
            obtain ⟨hm1, hs1⟩ := fetch_transaction_details_ok ws mid td mid₁ ws₁ hfd
            obtain ⟨hle, hlen, ext₂, hsent₂, hsub₂, hunsub₂⟩ := ih _ _ _ _ _ hpd
            subst hm1
            refine ⟨by omega, by simp [hlen],
              Frame.sub (mid + 1) :: Frame.unsub (mid + 1) :: ext₂, ?_, ?_, ?_⟩
            · rw [hsent₂, hs1]
              simp
            · rw [range'_eat mid _ (by omega), subIds_cons_sub, subIds_cons_unsub, hsub₂]
            · rw [range'_eat mid _ (by omega), unsubIds_cons_sub, unsubIds_cons_unsub, hunsub₂]
      · rw [if_neg hid] at h
        cases hpd : processDetails rest mid ws with
        | error e => rw [hpd] at h; exact Except.noConfusion h
        | ok r₂ =>
          obtain ⟨out₂, mid₂, ws₂⟩ := r₂
          rw [hpd] at h
          simp only [] at h
          injection h with h'
          injection h' with h1 h2
          injection h2 with h2 h3
          subst h1 h2 h3
          obtain ⟨hle, hlen, ext₂, hsent₂, hsub₂, hunsub₂⟩ := ih _ _ _ _ _ hpd
          exact ⟨hle, by simp [hlen], ext₂, hsent₂, hsub₂, hunsub₂⟩

/-- Gluing two adjacent consecutive id ranges. -/
theorem range'_glue (a b c : Nat) (hab : a ≤ b) (hbc : b ≤ c) :
    List.range' (a + 1) (b - a) ++ List.range' (b + 1) (c - b) = List.range' (a + 1) (c - a) := by
  have h := List.range'_append (a + 1) (b - a) (c - b) 1
  have e1 : a + 1 + 1 * (b - a) = b + 1 := by omega
  have e2 : c - b + (b - a) = c - a := by omega
  rw [e1, e2] at h
  exact h

/-- A successful run of the page loop keeps the id counter strictly
increasing, and the frames it sends carry exactly the freshly allocated
consecutive subscribe ids, each paired with its unsubscribe. -/
theorem fetchPagesLoop_frames (fuel : Nat) : ∀ (det : Bool) (cur : Option JVal)
    (mid : Nat) (acc : List JVal) (ws : Ws) (acc' : List JVal) (mid' : Nat) (ws' : Ws),
    fetchPagesLoop fuel det cur mid acc ws = .ok (acc', mid', ws') →
    mid + 1 ≤ mid' ∧
    ∃ ext, ws'.sent = ws.sent ++ ext ∧
      subIds ext = List.range' (mid + 1) (mid' - mid) ∧
      unsubIds ext = List.range' (mid + 1) (mid' - mid) := by
  induction fuel with
  | zero =>
    intro det cur mid acc ws acc' mid' ws' h
    simp [fetchPagesLoop] at h
  | succ fuel ih =>
    intro det cur mid acc ws acc' mid' ws' h
    rcases ws with ⟨inc, sent⟩
    match inc with
    | [] => simp [fetchPagesLoop, Ws.push, Ws.recvNext] at h
    | [r] => simp [fetchPagesLoop, Ws.push, Ws.recvNext] at h
    | r :: a :: irest =>
      simp only [fetchPagesLoop, Ws.push, Ws.recvNext] at h
      cases hfr : frameLoadsObj r with
      | none => rw [hfr] at h; exact Except.noConfusion h
      | some v =>
        rw [hfr] at h
        cases v with
        | null => exact Except.noConfusion h
        | bool b => exact Except.noConfusion h
        | int n => exact Except.noConfusion h
        | dec m e => exact Except.noConfusion h
        | str s => exact Except.noConfusion h
        | arr xs => exact Except.noConfusion h
        | obj kvs =>
          simp only [] at h
          by_cases hitems : (!pythonTruthy ((dictGet kvs "items").getD JVal.null)) = true
          · rw [if_pos hitems] at h
            injection h with h'
            injection h' with h1 h2
            injection h2 with h2 h3
            subst h1 h2 h3
            refine ⟨le_refl _, [Frame.sub (mid + 1), Frame.unsub (mid + 1)], by simp, ?_, ?_⟩
            · have e1 : mid + 1 - mid = 1 := by omega
              rw [e1]
              rfl
            · have e1 : mid + 1 - mid = 1 := by omega
              rw [e1]
              rfl
          · rw [if_neg hitems] at h
            cases hit : dictGet kvs "items" with
            | none =>
              rw [hit] at h
              exact Except.noConfusion h
            | some itemsv =>
              rw [hit] at h
              cases itemsv with
              | null => exact Except.noConfusion h
              | bool b => exact Except.noConfusion h
              | int n => exact Except.noConfusion h
              | dec m e => exact Except.noConfusion h
              | str s => exact Except.noConfusion h
              | obj okvs => exact Except.noConfusion h
              | arr items =>
                simp only [] at h
                have hproc : ∀ (processed : List JVal) (mid₂ : Nat) (ws₃ : Ws),
                    (if det then processDetails items (mid + 1) ⟨irest, sent ++ [Frame.sub (mid + 1)] ++ [Frame.unsub (mid + 1)]⟩
                     else .ok (items, mid + 1, ⟨irest, sent ++ [Frame.sub (mid + 1)] ++ [Frame.unsub (mid + 1)]⟩))
                      = .ok (processed, mid₂, ws₃) →
                    mid + 1 ≤ mid₂ ∧
                    ∃ extD, ws₃.sent = (sent ++ [Frame.sub (mid + 1)] ++ [Frame.unsub (mid + 1)]) ++ extD ∧
                      subIds extD = List.range' (mid + 1 + 1) (mid₂ - (mid + 1)) ∧
                      unsubIds extD = List.range' (mid + 1 + 1) (mid₂ - (mid + 1)) := by
                  intro processed mid₂ ws₃ hp
                  cases det with
                  | true =>
                    rw [if_pos rfl] at hp
                    obtain ⟨hle, -, extD, hsent, hsub, hunsub⟩ :=
                      processDetails_ok items (mid + 1) _ processed mid₂ ws₃ hp
                    exact ⟨hle, extD, hsent, hsub, hunsub⟩
                  | false =>
                    rw [if_neg (by simp)] at hp
                    injection hp with hp'
                    injection hp' with hp1 hp2
                    injection hp2 with hp2 hp3
                    subst hp1 hp2 hp3
                    exact ⟨le_refl _, [], by simp, by simp [subIds, Nat.sub_self, List.range'],
                      by simp [unsubIds, Nat.sub_self, List.range']⟩
                cases hp : (if det then processDetails items (mid + 1) ⟨irest, sent ++ [Frame.sub (mid + 1)] ++ [Frame.unsub (mid + 1)]⟩
                    else .ok (items, mid + 1, ⟨irest, sent ++ [Frame.sub (mid + 1)] ++ [Frame.unsub (mid + 1)]⟩)) with
                | error e => rw [hp] at h; exact Except.noConfusion h
                | ok rp =>
                  obtain ⟨processed, mid₂, ws₃⟩ := rp
                  rw [hp] at h
                  simp only [] at h
                  obtain ⟨hle2, extD, hsentD, hsubD, hunsubD⟩ := hproc _ _ _ hp
                  cases hcur : dictGet kvs "cursors" with
                  | none =>
                    rw [hcur] at h
                    injection h with h'
                    injection h' with h1 h2
                    injection h2 with h2 h3
                    subst h1 h2 h3
                    refine ⟨by omega, Frame.sub (mid + 1) :: Frame.unsub (mid + 1) :: extD,
                      by rw [hsentD]; simp, ?_, ?_⟩
                    · rw [range'_eat mid _ (by omega), subIds_cons_sub, subIds_cons_unsub, hsubD]
                    · rw [range'_eat mid _ (by omega), unsubIds_cons_sub, unsubIds_cons_unsub, hunsubD]
                  | some cv =>
                    rw [hcur] at h
                    cases cv with
                    | null => exact Except.noConfusion h
                    | bool b => exact Except.noConfusion h
                    | int n => exact Except.noConfusion h
                    | dec m e => exact Except.noConfusion h
                    | str s => exact Except.noConfusion h
                    | arr xs => exact Except.noConfusion h
                    | obj ckvs =>
                      simp only [] at h
                      cases haft : dictGet ckvs "after" with
                      | none =>
                        rw [haft] at h
                        injection h with h'
                        injection h' with h1 h2
                        injection h2 with h2 h3
                        subst h1 h2 h3
                        refine ⟨by omega, Frame.sub (mid + 1) :: Frame.unsub (mid + 1) :: extD,
                          by rw [hsentD]; simp, ?_, ?_⟩
                        · rw [range'_eat mid _ (by omega), subIds_cons_sub, subIds_cons_unsub, hsubD]
                        · rw [range'_eat mid _ (by omega), unsubIds_cons_sub, unsubIds_cons_unsub, hunsubD]
                      | some av =>
                        rw [haft] at h
                        simp only [] at h
                        by_cases hav : pythonTruthy av = true
                        · rw [if_pos hav] at h
                          obtain ⟨hle3, extL, hsentL, hsubL, hunsubL⟩ :=
                            ih det (some av) mid₂ _ ws₃ acc' mid' ws' h
                          refine ⟨by omega,
                            Frame.sub (mid + 1) :: Frame.unsub (mid + 1) :: (extD ++ extL),
                            by rw [hsentL, hsentD]; simp, ?_, ?_⟩
                          · rw [subIds_cons_sub, subIds_cons_unsub, subIds_append, hsubD, hsubL,
                              range'_glue (mid + 1) mid₂ mid' (by omega) (by omega),
                              range'_eat mid _ (by omega)]
                          · rw [unsubIds_cons_sub, unsubIds_cons_unsub, unsubIds_append, hunsubD,
                              hunsubL, range'_glue (mid + 1) mid₂ mid' (by omega) (by omega),
                              range'_eat mid _ (by omega)]
                        · rw [if_neg hav] at h
                          injection h with h'
                          injection h' with h1 h2
                          injection h2 with h2 h3
                          subst h1 h2 h3
                          refine ⟨by omega, Frame.sub (mid + 1) :: Frame.unsub (mid + 1) :: extD,
                            by rw [hsentD]; simp, ?_, ?_⟩
                          · rw [range'_eat mid _ (by omega), subIds_cons_sub, subIds_cons_unsub, hsubD]
                          · rw [range'_eat mid _ (by omega), unsubIds_cons_sub, unsubIds_cons_unsub, hunsubD]

/-- `subIds` and `unsubIds` ignore a leading `connect` frame. -/
theorem subIds_cons_connect (fs : List Frame) : subIds (Frame.connect :: fs) = subIds fs := rfl

/-- `unsubIds` ignores a leading `connect` frame. -/
theorem unsubIds_cons_connect (fs : List Frame) :
    unsubIds (Frame.connect :: fs) = unsubIds fs := rfl

/-! ### Claim C3 — request-id monotonicity and sub/unsub pairing -/

/-- C3, counterexample: across a full run — the transactions task followed by
the profile task — the subscribe-id sequence is `[1, 1]` (the profile task
restarts at the hard-coded id 1), which is not strictly increasing, and the
run sends two `sub 1` frames but only one `unsub 1`: `profile_cash` never
unsubscribes. -/
theorem c3_run_counterexample :
    fetch_all_transactions 1 false ["connected", "\x7b\x7d", "ack"]
      = .ok ([], ⟨[], [.connect, .sub 1, .unsub 1]⟩) ∧
    profile_cash ["connected", "[]"] = .ok ([], ⟨[], [.connect, .sub 1]⟩) ∧
    subIds ([Frame.connect, Frame.sub 1, Frame.unsub 1] ++ [Frame.connect, Frame.sub 1])
      = [1, 1] ∧
    unsubIds ([Frame.connect, Frame.sub 1, Frame.unsub 1] ++ [Frame.connect, Frame.sub 1])
      = [1] ∧
    ¬ List.Chain' (fun x y => x < y) [1, 1] ∧
    ¬ ([1] : List Nat).count 1 = ([1, 1] : List Nat).count 1 :=
  ⟨rfl, rfl, rfl, rfl,
    fun hc => absurd (List.chain'_cons.mp hc).1 (by omega), by decide⟩

/-- C3 (amended): within the transactions task's channel session the claim
holds — the subscribe ids are the consecutive range starting at 1, strictly
increasing with no repeats, and the unsubscribe ids are exactly the same
sequence, one per subscribe.  The profile task, however, opens its own session
whose only subscribe reuses the hard-coded id 1 and is never unsubscribed. -/
theorem c3_request_ids (fuel : Nat) (det : Bool) (incoming incoming₂ : List String)
    (items profileData : List JVal) (w w₂ : Ws)
    (h : fetch_all_transactions fuel det incoming = .ok (items, w))
    (h₂ : profile_cash incoming₂ = .ok (profileData, w₂)) :
    (∃ n, subIds w.sent = List.range' 1 n) ∧
    unsubIds w.sent = subIds w.sent ∧
    List.Chain' (fun x y => x < y) (subIds w.sent) ∧
    (∀ i ∈ subIds w.sent, (unsubIds w.sent).count i = 1) ∧
    subIds w₂.sent = [1] ∧
    unsubIds w₂.sent = [] := by
  have hw : ∃ n, subIds w.sent = List.range' 1 n ∧ unsubIds w.sent = List.range' 1 n := by
    rcases incoming with - | ⟨c, rest⟩
    · simp [fetch_all_transactions, Ws.push, Ws.recvNext] at h
    · simp only [fetch_all_transactions, Ws.push, Ws.recvNext, List.nil_append] at h
      cases hl : fetchPagesLoop fuel det none 0 [] ⟨rest, [Frame.connect]⟩ with
      | error e => rw [hl] at h; exact Except.noConfusion h
      | ok r =>
        obtain ⟨acc, midf, wsf⟩ := r
        rw [hl] at h
        injection h with h'
        injection h' with h1 h2
        subst h1 h2
        obtain ⟨hle, ext, hsent, hsub, hunsub⟩ :=
          fetchPagesLoop_frames fuel det none 0 [] _ acc midf wsf hl
        refine ⟨midf, ?_, ?_⟩
        · rw [hsent, List.cons_append, subIds_cons_connect]
          simpa using hsub
        · rw [hsent, List.cons_append, unsubIds_cons_connect]
          simpa using hunsub
  obtain ⟨n, hsub, hunsub⟩ := hw
  have hprof : w₂.sent = [Frame.connect, Frame.sub 1] := by
    rcases incoming₂ with - | ⟨c, rest⟩
    · simp [profile_cash, Ws.push, Ws.recvNext] at h₂
    · rcases rest with - | ⟨r, rest₂⟩
      · simp [profile_cash, Ws.push, Ws.recvNext] at h₂
      · simp only [profile_cash, Ws.push, Ws.recvNext] at h₂
        cases hfr : frameLoadsArr r with
        | none => rw [hfr] at h₂; exact Except.noConfusion h₂
        | some v =>
          rw [hfr] at h₂
          cases v with
          | null => exact Except.noConfusion h₂
          | bool b => exact Except.noConfusion h₂
          | int n => exact Except.noConfusion h₂
          | dec m e => exact Except.noConfusion h₂
          | str s => exact Except.noConfusion h₂
          | obj kvs => exact Except.noConfusion h₂
          | arr xs =>
            injection h₂ with h'
            injection h' with h1 h2
            subst h2
            rfl
  refine ⟨⟨n, hsub⟩, by rw [hsub, hunsub], ?_, ?_, by rw [hprof]; rfl, by rw [hprof]; rfl⟩
  · rw [hsub]
    exact (List.pairwise_lt_range' 1 n 1 (by omega)).chain'
  · intro i hi
    rw [hunsub]
    rw [hsub] at hi
    exact List.count_eq_one_of_mem (List.nodup_range' 1 n) hi

/-- C3 witness: a one-page transactions run next to a profile run. -/
theorem c3_request_ids_witness :
    (∃ n, subIds ([Frame.connect, Frame.sub 1, Frame.unsub 1] : List Frame).reverse.reverse
        = List.range' 1 n) ∧
    unsubIds [Frame.connect, Frame.sub 1, Frame.unsub 1]
      = subIds [Frame.connect, Frame.sub 1, Frame.unsub 1] ∧
    List.Chain' (fun x y => x < y) (subIds [Frame.connect, Frame.sub 1, Frame.unsub 1]) ∧
    (∀ i ∈ subIds [Frame.connect, Frame.sub 1, Frame.unsub 1],
      (unsubIds [Frame.connect, Frame.sub 1, Frame.unsub 1]).count i = 1) ∧
    subIds [Frame.connect, Frame.sub 1] = [1] ∧
    unsubIds [Frame.connect, Frame.sub 1] = [] := by
  have := c3_request_ids 1 false ["connected", "\x7b\x7d", "ack"] ["connected", "[]"]
    [] [] ⟨[], [Frame.connect, Frame.sub 1, Frame.unsub 1]⟩
    ⟨[], [Frame.connect, Frame.sub 1]⟩ rfl rfl
  simpa using this

/-! ### Claim C10 — enrichment never drops an item -/

/-- C10: a successful enrichment pass emits exactly one output item per input
item (so no fetched item is dropped), and an item whose `id` is missing or
falsy is passed through unchanged — the step neither touches the websocket nor
consumes a request id for it, it only prepends the untouched item to the
result of processing the remaining items. -/
theorem c10_enrichment (items : List JVal) (mid : Nat) (ws : Ws)
    (out : List JVal) (mid' : Nat) (ws' : Ws) (kvs : List (String × JVal))
    (rest : List JVal)
    (hrun : processDetails items mid ws = .ok (out, mid', ws'))
    (hid : pythonTruthy ((dictGet kvs "id").getD JVal.null) = false) :
    out.length = items.length ∧
    processDetails (JVal.obj kvs :: rest) mid ws
      = (processDetails rest mid ws).map
          (fun r => (JVal.obj kvs :: r.1, r.2.1, r.2.2)) := by
  constructor
  · exact (processDetails_ok items mid ws out mid' ws' hrun).2.1
  · simp only [processDetails]
    rw [if_neg (by simp [hid])]
    cases processDetails rest mid ws with
    | error e => rfl
    | ok r =>
      obtain ⟨a, b, c⟩ := r
      rfl

/-- C10 witness: a page whose single item has no `id` field passes through
the enrichment loop untouched. -/
theorem c10_enrichment_witness :
    ([JVal.obj [("x", JVal.int 1)]] : List JVal).length
      = ([JVal.obj [("x", JVal.int 1)]] : List JVal).length ∧
    processDetails [JVal.obj [("x", JVal.int 1)]] 0 ⟨[], []⟩
      = (processDetails [] 0 ⟨[], []⟩).map
          (fun r => (JVal.obj [("x", JVal.int 1)] :: r.1, r.2.1, r.2.2)) :=
  c10_enrichment [JVal.obj [("x", JVal.int 1)]] 0 ⟨[], []⟩
    [JVal.obj [("x", JVal.int 1)]] 0 ⟨[], []⟩ [("x", JVal.int 1)] [] rfl rfl

/-! ### Claim C4 — pagination termination and accumulation -/

/-- One server page: its `items` list and the `cursors.after` value, when the
response carries one. -/
structure Page where
  items : List JVal
  after : Option JVal
deriving Repr

/-- The bindings of the decoded JSON object of a page response. -/
def pageKvs (p : Page) : List (String × JVal) :=
  ("items", JVal.arr p.items) ::
    (match p.after with
     | some a => [("cursors", JVal.obj [("after", a)])]
     | none => [])

/-- The decoded JSON object of a page response. -/
def pageJson (p : Page) : JVal := JVal.obj (pageKvs p)

/-- Looking up `items` in a page object. -/
theorem pageKvs_items (p : Page) :
    dictGet (pageKvs p) "items" = some (JVal.arr p.items) := rfl

/-- Looking up `cursors` in a page object with no continuation. -/
theorem pageKvs_cursors_none (p : Page) (h : p.after = none) :
    dictGet (pageKvs p) "cursors" = none := by
  unfold pageKvs
  rw [h]
  rfl

/-- Looking up `cursors` in a page object with a continuation value. -/
theorem pageKvs_cursors_some (p : Page) (a : JVal) (h : p.after = some a) :
    dictGet (pageKvs p) "cursors" = some (JVal.obj [("after", a)]) := by
  unfold pageKvs
  rw [h]
  rfl

/-- The claim's page-sequence shape: non-empty, every page before the last has
a non-empty `items` list and a truthy continuation cursor, and the last page
has an empty `items` list or an absent (or falsy) cursor. -/
def pagesWF : List Page → Bool
  | [] => false
  | [p] =>
    p.items.isEmpty ||
      (match p.after with
       | none => true
       | some a => !pythonTruthy a)
  | p :: ps =>
    !p.items.isEmpty &&
      (match p.after with
       | none => false
       | some a => pythonTruthy a) && pagesWF ps

/-- The incoming text frames encode the given pages, two frames per page (the
page response and the unsubscribe acknowledgement); frames beyond the last
page are unconstrained (the loop never reads them). -/
def StreamEncodes : List String → List Page → Prop
  | _, [] => True
  | r :: _ :: rest, p :: ps => frameLoadsObj r = some (pageJson p) ∧ StreamEncodes rest ps
  | _, _ :: _ => False

/-- The page loop, fed a well-formed page sequence with enough fuel and no
detail extraction, terminates with exactly the pages' items appended to the
accumulator in order. -/
theorem fetchPagesLoop_pages (pages : List Page) : ∀ (fuel : Nat) (cur : Option JVal)
    (mid : Nat) (acc : List JVal) (stream : List String) (sent : List Frame),
    pagesWF pages = true → StreamEncodes stream pages → pages.length ≤ fuel →
    ∃ mid' ws', fetchPagesLoop fuel false cur mid acc ⟨stream, sent⟩
        = .ok (acc ++ (pages.map Page.items).flatten, mid', ws') := by
  induction pages with
  | nil =>
    intro fuel cur mid acc stream sent hwf henc hfuel
    simp [pagesWF] at hwf
  | cons p ps ih =>
    intro fuel cur mid acc stream sent hwf henc hfuel
    rcases stream with - | ⟨r, stream1⟩
    · simp [StreamEncodes] at henc
    rcases stream1 with - | ⟨x, rest⟩
    · simp [StreamEncodes] at henc
    obtain ⟨hdec, henc'⟩ := henc
    rcases fuel with - | fuel
    · simp at hfuel
    simp only [fetchPagesLoop, Ws.push, Ws.recvNext, List.nil_append]
    rw [hdec]
    simp only [pageJson]
    cases ps with
    | nil =>
      by_cases hempty : p.items.isEmpty = true
      · have he : p.items = [] := List.isEmpty_iff.mp hempty
        refine ⟨mid + 1, ⟨rest, sent ++ [Frame.sub (mid + 1)] ++ [Frame.unsub (mid + 1)]⟩, ?_⟩
        rw [if_pos (by simp [pageKvs_items, pythonTruthy, hempty])]
        simp [he]
      · have hnt : pythonTruthy (JVal.arr p.items) = true := by
          simp [pythonTruthy, hempty]
        have hstep : (!pythonTruthy ((dictGet (pageKvs p) "items").getD JVal.null)) = false := by
          rw [pageKvs_items]
          simp [hnt]
        rw [if_neg (by simp [hstep]), pageKvs_items]
        simp only []
        have hcur : (match p.after with
            | none => true
            | some a => !pythonTruthy a) = true := by
          simp only [pagesWF] at hwf
          rcases Bool.or_eq_true _ _ |>.mp hwf with hx | hx
          · exact absurd hx hempty
          · exact hx
        cases ha : p.after with
        | none =>
          refine ⟨mid + 1, ⟨rest, sent ++ [Frame.sub (mid + 1)] ++ [Frame.unsub (mid + 1)]⟩, ?_⟩
          rw [pageKvs_cursors_none p ha]
          simp
        | some a =>
          rw [ha] at hcur
          have hac : pythonTruthy a = false := by simpa using hcur
          refine ⟨mid + 1, ⟨rest, sent ++ [Frame.sub (mid + 1)] ++ [Frame.unsub (mid + 1)]⟩, ?_⟩
          rw [pageKvs_cursors_some p a ha]
          simp [dictGet, hac]
    | cons q ps' =>
      simp only [pagesWF] at hwf
      rcases Bool.and_eq_true _ _ |>.mp hwf with ⟨hwf1, hwf'⟩
      rcases Bool.and_eq_true _ _ |>.mp hwf1 with ⟨hne, hcur⟩
      have hnt : pythonTruthy (JVal.arr p.items) = true := by
        simp only [Bool.not_eq_true'] at hne
        simp [pythonTruthy, hne]
      have hstep : (!pythonTruthy ((dictGet (pageKvs p) "items").getD JVal.null)) = false := by
        rw [pageKvs_items]
        simp [hnt]
      rw [if_neg (by simp [hstep]), pageKvs_items]
      simp only []
      cases ha : p.after with
      | none => rw [ha] at hcur; exact absurd hcur (by simp)
      | some a =>
        rw [ha] at hcur
        have hat : pythonTruthy a = true := hcur
        rw [pageKvs_cursors_some p a ha]
        obtain ⟨mid', ws', hrec⟩ := ih fuel (some a) (mid + 1) (acc ++ p.items) rest
          (sent ++ [Frame.sub (mid + 1)] ++ [Frame.unsub (mid + 1)]) hwf' henc'
          (by simpa using hfuel)
        refine ⟨mid', ws', ?_⟩
        rw [if_neg (show ¬(false = true) by simp)]
        simp only []
        rw [show dictGet [("after", a)] "after" = some a from rfl]
        simp only []
        rw [if_pos hat]
        rw [hrec]
        simp [List.append_assoc]

/-- C4: for any finite page sequence whose last page has an empty `items` list
or an absent (or falsy) cursor — every earlier page having items and a truthy
cursor — the pagination driver terminates successfully (any fuel of at least
the page count is never exhausted), and the accumulated list is exactly the
concatenation of the pages' item lists in cursor-chain order. -/
theorem c4_pagination (fuel : Nat) (pages : List Page) (connectResp : String)
    (stream : List String)
    (hwf : pagesWF pages = true)
    (henc : StreamEncodes stream pages)
    (hfuel : pages.length ≤ fuel) :
    ∃ w, fetch_all_transactions fuel false (connectResp :: stream)
        = .ok ((pages.map Page.items).flatten, w) := by
  obtain ⟨mid', ws', hl⟩ := fetchPagesLoop_pages pages fuel none 0 [] stream [Frame.connect]
    hwf henc hfuel
  refine ⟨ws', ?_⟩
  simp only [fetch_all_transactions, Ws.push, Ws.recvNext, List.nil_append]
  rw [hl]
  simp

/-- C4 witness: two concrete pages — `t1` with cursor `c1`, then `t2` with no
cursor — accumulate to exactly `[t1, t2]`. -/
theorem c4_pagination_witness :
    ∃ w, fetch_all_transactions 2 false
        ["connected",
         "A \x7b\"items\": [\x7b\"id\": \"t1\"\x7d], \"cursors\": \x7b\"after\": \"c1\"\x7d\x7d",
         "ack",
         "A \x7b\"items\": [\x7b\"id\": \"t2\"\x7d]\x7d",
         "ack"]
      = .ok ([JVal.obj [("id", JVal.str "t1")], JVal.obj [("id", JVal.str "t2")]], w) := by
  have h := c4_pagination 2
    [⟨[JVal.obj [("id", JVal.str "t1")]], some (JVal.str "c1")⟩,
     ⟨[JVal.obj [("id", JVal.str "t2")]], none⟩]
    "connected"
    ["A \x7b\"items\": [\x7b\"id\": \"t1\"\x7d], \"cursors\": \x7b\"after\": \"c1\"\x7d\x7d",
     "ack",
     "A \x7b\"items\": [\x7b\"id\": \"t2\"\x7d]\x7d",
     "ack"]
    rfl ⟨rfl, rfl, trivial⟩ (by simp)
  exact h
